import Mathlib

/-!
# Verification of the tabular-to-Parquet conversion engine

Shallow embedding of `src/patentsview_gbq/tasks/task_02_extract_to_parquet.py`
and proofs of the specification's claims about it.

Modelling conventions:
* pandas cell values read with `dtype=str, keep_default_na=False, na_values=[]`
  are plain strings, so a raw column is `List String`.
* a materialized (pyarrow) column carries its physical type: `Column.str`
  (object/string), `Column.date32`, `Column.int64` (nullable Int64) or
  `Column.float64`.  Missing values are `Option.none`.
* float64 arithmetic performed by pandas is idealized as exact rational
  arithmetic over `ℚ` (the numerals occurring in the claims are exactly
  representable, so no claim verdict depends on binary rounding).
* `pd.to_numeric(errors="coerce")` is modelled for finite decimal /
  scientific-notation numerals; unparseable strings coerce to `none`.
* `pd.to_datetime(format=..., errors="coerce").dt.date` is modelled after the
  strptime semantics pandas implements: `%Y` takes exactly four digits, `%m`
  and `%d` take one or two digits (values validated against the calendar), the
  whole string must be consumed, and out-of-range timestamps (outside
  1677-09-22 .. 2262-04-11, the nanosecond-`Timestamp` range) coerce to `NaT`.
* `Series.round()` rounds half to even (numpy semantics).
* Lean's `String` library functions are bypassed in favour of `List Char`
  so that everything evaluates by `decide`; `String.toList`/`String.mk` are
  the only bridges used.
-/

unseal Rat.add Rat.mul Rat.inv Rat.sub Rat.ofScientific

deriving instance DecidableEq for Except

/-- `SIZE_THRESHOLD_BYTES = 200 * 1024 * 1024` from the source module. -/
def SIZE_THRESHOLD_BYTES : Nat := 200 * 1024 * 1024

/-- `DEFAULT_CHUNKSIZE = 500_000` from the source module. -/
def DEFAULT_CHUNKSIZE : Nat := 500000

/-- `N_COLUMNS = None` from the source module (per-dataset override unused). -/
def N_COLUMNS : Option Nat := none

/-- A date-only value, what `pd.to_datetime(...).dt.date` yields per cell. -/
structure Date where
  year : Nat
  month : Nat
  day : Nat
  deriving DecidableEq, Repr

/-- Physical column type of a materialized (pyarrow) column. -/
inductive DType where
  | string
  | date32
  | int64
  | float64
  deriving DecidableEq, Repr

/-- A materialized column: physical type together with its values. -/
inductive Column where
  | str (vals : List String)
  | date32 (vals : List (Option Date))
  | int64 (vals : List (Option Int))
  | float64 (vals : List (Option ℚ))
  deriving DecidableEq, Repr

/-- The dtype tag of a column. -/
def Column.dtype : Column → DType
  | .str _ => .string
  | .date32 _ => .date32
  | .int64 _ => .int64
  | .float64 _ => .float64

/-- A chunk/DataFrame: ordered columns, each a name with its values. -/
abbrev TypedTable := List (String × Column)

/-- A pyarrow schema: ordered column names with their physical types. -/
abbrev Schema := List (String × DType)

/-- Schema derived from a table (`pa.Table.from_pandas(...).schema`). -/
def tableSchema (t : TypedTable) : Schema := t.map (fun p => (p.1, p.2.dtype))

/-- The double-quote character (written via its code point, 34). -/
def dquote : Char := Char.ofNat 34

/-- Value of a digit string, most significant first (`int("0123")`-style). -/
def digitsVal (cs : List Char) : Nat :=
  cs.foldl (fun a c => a * 10 + (c.toNat - 48)) 0

/-- Exponent part of a numeral after `e`/`E`: optional sign, ≥ 1 digit. -/
def parseExpPart (cs : List Char) : Option Int :=
  match cs with
  | '+' :: r => if r ≠ [] ∧ r.all Char.isDigit then some (digitsVal r : Int) else none
  | '-' :: r => if r ≠ [] ∧ r.all Char.isDigit then some (-(digitsVal r : Int)) else none
  | r => if r ≠ [] ∧ r.all Char.isDigit then some (digitsVal r : Int) else none

/-- Mantissa of a numeral: digits, optionally a point and further digits;
at least one digit overall. -/
def parseMantissa (cs : List Char) : Option ℚ :=
  match cs.span Char.isDigit with
  | (ip, []) => if ip = [] then none else some (digitsVal ip : ℚ)
  | (ip, '.' :: fp) =>
      if fp.all Char.isDigit ∧ (ip ≠ [] ∨ fp ≠ []) then
        some ((digitsVal ip : ℚ) + (digitsVal fp : ℚ) / 10 ^ fp.length)
      else none
  | _ => none

/-- `pd.to_numeric(errors="coerce")` on one cell: optional sign, decimal
mantissa, optional scientific exponent; anything else coerces to `none`.
(The exotic `inf`/`nan` spellings accepted by pandas are outside the model:
they cannot be represented in `ℚ` and no claim depends on them.) -/
def to_numeric (s : String) : Option ℚ :=
  match s.toList with
  | '+' :: body =>
      (match body.span (fun c => c != 'e' && c != 'E') with
       | (mant, []) => parseMantissa mant
       | (mant, _ :: ecs) =>
           match parseMantissa mant, parseExpPart ecs with
           | some m, some e => some (m * (10 : ℚ) ^ e)
           | _, _ => none)
  | '-' :: body =>
      (match body.span (fun c => c != 'e' && c != 'E') with
       | (mant, []) => (parseMantissa mant).map (fun m => -m)
       | (mant, _ :: ecs) =>
           match parseMantissa mant, parseExpPart ecs with
           | some m, some e => some (-(m * (10 : ℚ) ^ e))
           | _, _ => none)
  | body =>
      (match body.span (fun c => c != 'e' && c != 'E') with
       | (mant, []) => parseMantissa mant
       | (mant, _ :: ecs) =>
           match parseMantissa mant, parseExpPart ecs with
           | some m, some e => some (m * (10 : ℚ) ^ e)
           | _, _ => none)

/-- `Series.round()` on one value: round half to even (numpy semantics). -/
def roundHalfEven (q : ℚ) : Int :=
  let f : Int := ⌊q⌋
  let r : ℚ := q - (f : ℚ)
  if r < 1 / 2 then f
  else if (1 : ℚ) / 2 < r then f + 1
  else if f % 2 = 0 then f else f + 1

/-- The absolute tolerance `1e-10` from `_parse_integer_columns`. -/
def intTol : ℚ := 1 / 10 ^ 10

/-- `(v - v.round()).abs() < 1e-10` for one parsed value. -/
def isWholeB (q : ℚ) : Bool := decide (|q - (roundHalfEven q : ℚ)| < intTol)

/-- Body of the per-column loop of `_parse_integer_columns`: parse every cell
with `to_numeric` (failures → null); if some value is non-null and all
non-null values are within `1e-10` of their own rounded value, materialize as
nullable Int64 of the rounded values; if a non-null value is farther away,
keep float64; if all values are null, materialize as (all-null) Int64. -/
def parseIntegerColumn (vs : List String) : Column :=
  let nums := vs.map to_numeric
  let nonNull := nums.filterMap id
  if nonNull ≠ [] then
    if nonNull.all isWholeB then Column.int64 (nums.map (Option.map roundHalfEven))
    else Column.float64 nums
  else Column.int64 (nums.map (fun _ => none))

/-- `_strip_outer_quotes` on one cell: Python's
`x[1:-1] if x.startswith(DQ) and x.endswith(DQ) else x`.  Note the source has
no length guard: the one-character string consisting of a double quote starts
and ends with a quote, and `x[1:-1]` of it is the empty string. -/
def strip_outer_quotes_val (x : String) : String :=
  if x.toList.head? = some dquote ∧ x.toList.getLast? = some dquote then
    String.mk ((x.toList.drop 1).dropLast)
  else x

/-- `_strip_outer_quotes` applied to one column (only object/string columns
are touched; at the point of use every column is string-typed). -/
def stripColumn : Column → Column
  | .str vs => .str (vs.map strip_outer_quotes_val)
  | c => c

/-- `_strip_outer_quotes` on a whole chunk. -/
def strip_outer_quotes (t : TypedTable) : TypedTable :=
  t.map (fun p => (p.1, stripColumn p.2))

/-- Gregorian leap-year test (as in `datetime`). -/
def isLeapYear (y : Nat) : Prop := y % 4 = 0 ∧ (y % 100 ≠ 0 ∨ y % 400 = 0)

instance (y : Nat) : Decidable (isLeapYear y) := by
  unfold isLeapYear; infer_instance

/-- Number of days of month `m` in year `y` (as in `datetime`). -/
def daysInMonth (y m : Nat) : Nat :=
  if m = 2 then (if isLeapYear y then 29 else 28)
  else if m = 4 ∨ m = 6 ∨ m = 9 ∨ m = 11 then 30
  else 31

/-- `(y, m, d)` lies in the nanosecond-`Timestamp` representable range
(midnights of 1677-09-22 through 2262-04-11); pandas coerces out-of-range
parses to `NaT` under `errors="coerce"`. -/
def inTimestampBounds (y m d : Nat) : Prop :=
  (1677 < y ∨ (y = 1677 ∧ (9 < m ∨ (m = 9 ∧ 22 ≤ d)))) ∧
  (y < 2262 ∨ (y = 2262 ∧ (m < 4 ∨ (m = 4 ∧ d ≤ 11))))

instance (y m d : Nat) : Decidable (inTimestampBounds y m d) := by
  unfold inTimestampBounds; infer_instance

/-- Validate and assemble the three `%Y`/`%m`/`%d` fields: `%Y` is exactly
four digits, `%m` and `%d` one or two digits; values must form a real
calendar date inside the `Timestamp` range. -/
def mkDateOfParts (ys ms ds : List Char) : Option Date :=
  if ys.length = 4 ∧ ys.all Char.isDigit ∧
     (ms.length = 1 ∨ ms.length = 2) ∧ ms.all Char.isDigit ∧
     (ds.length = 1 ∨ ds.length = 2) ∧ ds.all Char.isDigit then
    if 1 ≤ digitsVal ys ∧ 1 ≤ digitsVal ms ∧ digitsVal ms ≤ 12 ∧ 1 ≤ digitsVal ds ∧
       digitsVal ds ≤ daysInMonth (digitsVal ys) (digitsVal ms) ∧
       inTimestampBounds (digitsVal ys) (digitsVal ms) (digitsVal ds) then
      some ⟨digitsVal ys, digitsVal ms, digitsVal ds⟩
    else none
  else none

/-- Split a character list at the two hyphens of `%Y-%m-%d` and delegate. -/
def parseDateChars (cs : List Char) : Option Date :=
  match cs.span (fun c => c != '-') with
  | (ys, '-' :: rest) =>
      (match rest.span (fun c => c != '-') with
       | (ms, '-' :: ds) => mkDateOfParts ys ms ds
       | _ => none)
  | _ => none

/-- `pd.to_datetime(v, format="%Y-%m-%d", errors="coerce").date()` on one
cell. -/
def parseDateVal (s : String) : Option Date := parseDateChars s.toList

/-- The date transform `_parse_date_columns` applies to a selected column. -/
def dateTransform : Column → Column
  | .str vs => .date32 (vs.map parseDateVal)
  | c => c

/-- The integer transform `_parse_integer_columns` applies to a selected
column. -/
def intTransform : Column → Column
  | .str vs => parseIntegerColumn vs
  | c => c

/-- `_parse_date_columns`: for every declared DATE column name that is
present among the chunk's columns, replace the column by its parsed date
column; `None` (no schema) leaves the chunk untouched. -/
def parse_date_columns (dateColumns : Option (List String)) (df : TypedTable) : TypedTable :=
  match dateColumns with
  | none => df
  | some cols => df.map (fun p => if p.1 ∈ cols then (p.1, dateTransform p.2) else p)

/-- `_parse_integer_columns`: same selection discipline for INTEGER columns. -/
def parse_integer_columns (integerColumns : Option (List String)) (df : TypedTable) : TypedTable :=
  match integerColumns with
  | none => df
  | some cols => df.map (fun p => if p.1 ∈ cols then (p.1, intTransform p.2) else p)

/-- `_apply_column_limit`: with `N_COLUMNS = None` this is the identity; with
a limit it fails when fewer columns are present, else keeps the first `n`. -/
def apply_column_limit (df : TypedTable) : Except String TypedTable :=
  match N_COLUMNS with
  | none => Except.ok df
  | some n =>
      if df.length < n then Except.error "Expected at least N_COLUMNS columns"
      else Except.ok (df.take n)

/-- The per-chunk pipeline shared by both strategies, in source order:
column limit, quote stripping, date coercion, integer coercion. -/
def processChunk (dateColumns integerColumns : Option (List String))
    (df : TypedTable) : Except String TypedTable :=
  match apply_column_limit df with
  | Except.error e => Except.error e
  | Except.ok df1 =>
      Except.ok (parse_integer_columns integerColumns
        (parse_date_columns dateColumns (strip_outer_quotes df1)))

/-- Lifecycle of `pq.ParquetWriter` inside `_write_parquet_streaming`:
`writer = None` / open with a fixed schema and the row groups written so far /
closed (file handle released, written row groups persisted). -/
inductive WriterSt where
  | unopened
  | openW (sch : Schema) (written : List TypedTable)
  | closedW (sch : Schema) (written : List TypedTable)
  deriving DecidableEq, Repr

/-- The error pyarrow raises when `write_table` receives a table whose schema
differs from the one the writer was created with. -/
def schemaMismatchMsg : String :=
  "Table schema does not match schema used to create file"

/-- The chunk loop of `_write_parquet_streaming`: process each chunk, open
the writer on the first table (fixing the file schema to that table's
schema), append subsequent tables; `write_table` errors on a schema mismatch.
Returns the loop outcome and the writer state at loop exit. -/
def streamLoop (dateColumns integerColumns : Option (List String)) :
    List TypedTable → WriterSt → Except String Unit × WriterSt
  | [], w => (Except.ok (), w)
  | c :: rest, w =>
      match processChunk dateColumns integerColumns c with
      | Except.error e => (Except.error e, w)
      | Except.ok t =>
          match w with
          | WriterSt.unopened =>
              streamLoop dateColumns integerColumns rest
                (WriterSt.openW (tableSchema t) [t])
          | WriterSt.openW sch ts =>
              if tableSchema t = sch then
                streamLoop dateColumns integerColumns rest
                  (WriterSt.openW sch (ts ++ [t]))
              else (Except.error schemaMismatchMsg, WriterSt.openW sch ts)
          | WriterSt.closedW sch ts =>
              (Except.error "write on closed writer", WriterSt.closedW sch ts)

/-- The `finally` clause: `if writer is not None: writer.close()`. -/
def closeWriter : WriterSt → WriterSt
  | WriterSt.openW sch ts => WriterSt.closedW sch ts
  | w => w

/-- `_write_parquet_streaming`: run the chunk loop, then unconditionally
execute the `finally` clause on the way out (both on normal completion and on
a propagating error). -/
def write_parquet_streaming (dateColumns integerColumns : Option (List String))
    (chunks : List TypedTable) : Except String Unit × WriterSt :=
  match streamLoop dateColumns integerColumns chunks WriterSt.unopened with
  | (r, w) => (r, closeWriter w)

/-- `True` iff the writer's output handle is released (never opened, or
closed). -/
def writerReleased : WriterSt → Bool
  | WriterSt.openW _ _ => false
  | _ => true

/-- The data a writer state holds for the output file (schema and row
groups), if the file was created at all. -/
def writerContent : WriterSt → Option (Schema × List TypedTable)
  | WriterSt.unopened => none
  | WriterSt.openW sch ts => some (sch, ts)
  | WriterSt.closedW sch ts => some (sch, ts)

/-- A written Parquet file: its fixed schema and its row groups. -/
structure ParquetFile where
  schema : Schema
  rowGroups : List TypedTable
  deriving DecidableEq, Repr

/-- All rows of a Parquet file in order (row groups flattened). -/
def ParquetFile.allGroups (f : ParquetFile) : List TypedTable := f.rowGroups

/-- `pd.read_csv(..., chunksize=k)`: split the data rows into consecutive
chunks of `k` rows (the last one possibly shorter).  Defined with explicit
fuel so that it evaluates by `decide`. -/
def chunkListAux (k : Nat) : Nat → List α → List (List α)
  | 0, _ => []
  | _, [] => []
  | fuel + 1, l => l.take k :: chunkListAux k fuel (l.drop k)

/-- Chunking with enough fuel for any positive chunk size. -/
def chunkList (k : Nat) (l : List α) : List (List α) := chunkListAux k l.length l

/-- Column-orient a header plus data rows, as `pd.read_csv` does (cell `i` of
each row belongs to header column `i`; the model totalizes ragged rows with
empty strings, which never occurs for well-formed TSV input). -/
def toCols (header : List String) (rows : List (List String)) :
    List (String × List String) :=
  header.enum.map (fun p => (p.2, rows.map (fun r => r.getD p.1 "")))

/-- A freshly read chunk: every column has pandas dtype `str`. -/
def loadChunk (cols : List (String × List String)) : TypedTable :=
  cols.map (fun p => (p.1, Column.str p.2))

/-- The STREAMING strategy on a member's parsed content, with an explicit
chunk size: chunk the rows, then run `_write_parquet_streaming`. -/
def streamingConvert (dateColumns integerColumns : Option (List String))
    (chunksize : Nat) (header : List String) (rows : List (List String)) :
    Except String Unit × WriterSt :=
  write_parquet_streaming dateColumns integerColumns
    ((chunkList chunksize rows).map (fun rs => loadChunk (toCols header rs)))

/-- The BUFFERED strategy on a member's parsed content: process everything as
one block and write a single-row-group Parquet file (`df.to_parquet`). -/
def bufferedConvert (dateColumns integerColumns : Option (List String))
    (header : List String) (rows : List (List String)) :
    Except String ParquetFile :=
  match processChunk dateColumns integerColumns (loadChunk (toCols header rows)) with
  | Except.error e => Except.error e
  | Except.ok t => Except.ok ⟨tableSchema t, [t]⟩

/-- Conversion strategy chosen by the size classifier. -/
inductive Strategy where
  | STREAMING
  | BUFFERED
  deriving DecidableEq, Repr

/-- `use_streaming = member.file_size >= SIZE_THRESHOLD_BYTES`. -/
def chooseStrategy (fileSize : Nat) : Strategy :=
  if SIZE_THRESHOLD_BYTES ≤ fileSize then Strategy.STREAMING else Strategy.BUFFERED

/-- Python's `suffix in s` / `s.endswith(suffix)` on the character level. -/
def strEndsWith (s suffix : String) : Bool := suffix.toList.isSuffixOf s.toList

/-- Python's `sub in s` substring test on the character level. -/
def strContains (s sub : String) : Bool := decide (sub.toList <:+: s.toList)

/-- `lower_chunksize = 100_000 if "abstract" in table_name else DEFAULT_CHUNKSIZE`. -/
def chunksizeFor (tableName : String) : Nat :=
  if strContains tableName "abstract" then 100000 else DEFAULT_CHUNKSIZE

/-- One delimited-text member of a zip archive: name, uncompressed size
(`ZipInfo.file_size`), and its parsed header/data rows. -/
structure Member where
  filename : String
  fileSize : Nat
  header : List String
  rows : List (List String)
  deriving DecidableEq, Repr

/-- A zip archive: its file name and its members. -/
structure Archive where
  zipName : String
  members : List Member
  deriving DecidableEq, Repr

/-- The filesystem state a conversion job touches: the content at its target
parquet path (if the file exists) and the lines of the conversion log. -/
structure FS where
  parquetOut : Option ParquetFile
  log : List String
  deriving DecidableEq, Repr

/-- Side effects a job can perform, in order of occurrence. -/
inductive Effect where
  | mkdirE
  | openLog
  | readArchive
  | writeOutput
  | appendLog
  deriving DecidableEq, Repr

/-- The log line `_convert_member_to_parquet` appends on the streaming path
(before conversion starts). -/
def streamingLogLine (tableName : String) (m : Member) (k : Nat) : String :=
  tableName ++ ": STREAMING (size=" ++ toString m.fileSize ++
    " bytes, chunksize=" ++ toString k ++ ")"

/-- The log line the buffered path appends after a successful write. -/
def bufferedLogLine (tableName : String) (m : Member) : String :=
  tableName ++ ": IN_MEMORY (size=" ++ toString m.fileSize ++
    " bytes, rows=" ++ toString m.rows.length ++
    ", cols=" ++ toString m.header.length ++ ")"

/-- `_convert_member_to_parquet`: classify by uncompressed size, then run the
chosen strategy.  Returns the outcome, the parquet file content written (if
any; a partial file survives a streaming failure), and the log lines
appended. -/
def convert_member (dateColumns integerColumns : Option (List String))
    (tableName : String) (m : Member) :
    Except String Unit × Option ParquetFile × List String :=
  match chooseStrategy m.fileSize with
  | Strategy.STREAMING =>
      let k := chunksizeFor tableName
      let line := streamingLogLine tableName m k
      match streamingConvert dateColumns integerColumns k m.header m.rows with
      | (r, w) => (r, (writerContent w).map (fun p => ⟨p.1, p.2⟩), [line])
  | Strategy.BUFFERED =>
      match bufferedConvert dateColumns integerColumns m.header m.rows with
      | Except.error e => (Except.error e, none, [])
      | Except.ok f => (Except.ok (), some f, [bufferedLogLine tableName m])

/-- The `for member in members` loop of `convert_zip`, including the `except`
handler that appends `<zip>: ERROR - <msg>` to the log before re-raising. -/
def membersLoop (dateColumns integerColumns : Option (List String))
    (tableName zipName : String) :
    List Member → FS → Except String Unit × FS × List Effect
  | [], fs => (Except.ok (), fs, [])
  | m :: rest, fs =>
      match convert_member dateColumns integerColumns tableName m with
      | (Except.ok _, fileOpt, lines) =>
          let fs1 : FS :=
            { parquetOut := match fileOpt with
                | some f => some f
                | none => fs.parquetOut
              log := fs.log ++ lines }
          (match membersLoop dateColumns integerColumns tableName zipName rest fs1 with
           | (r, fs2, effs) =>
              (r, fs2, [Effect.readArchive, Effect.writeOutput, Effect.appendLog] ++ effs))
      | (Except.error e, fileOpt, lines) =>
          (Except.error e,
           { parquetOut := match fileOpt with
               | some f => some f
               | none => fs.parquetOut
             log := fs.log ++ lines ++ [zipName ++ ": ERROR - " ++ e] },
           [Effect.readArchive, Effect.appendLog])

/-- The `ValueError` message for an archive with no TSV members. -/
def noTsvMsg (ar : Archive) : String := "No TSV members found in " ++ ar.zipName

/-- `convert_zip`: skip with no side effects when the target parquet already
exists; otherwise create directories, open the log, open the archive, fail
(logged, then raised) when no `.tsv` member exists, else convert each member. -/
def convert_zip (dateColumns integerColumns : Option (List String))
    (tableName : String) (ar : Archive) (fs : FS) :
    Except String Unit × FS × List Effect :=
  if fs.parquetOut.isSome then (Except.ok (), fs, [])
  else
    let tsvMembers := ar.members.filter (fun m => strEndsWith m.filename ".tsv")
    if tsvMembers.isEmpty then
      (Except.error (noTsvMsg ar),
       { fs with log := fs.log ++ [ar.zipName ++ ": ERROR - " ++ noTsvMsg ar] },
       [Effect.mkdirE, Effect.openLog, Effect.readArchive, Effect.appendLog])
    else
      match membersLoop dateColumns integerColumns tableName ar.zipName tsvMembers fs with
      | (r, fs1, effs) =>
          (r, fs1, [Effect.mkdirE, Effect.openLog, Effect.readArchive] ++ effs)

lemma roundHalfEven_nearest (q : ℚ) (z : Int)
    (hq : |q - (roundHalfEven q : ℚ)| < intTol) (hz : z ≠ roundHalfEven q) :
    |q - (roundHalfEven q : ℚ)| < |q - (z : ℚ)| := by
  have h0 : (roundHalfEven q : ℤ) - z ≠ 0 := sub_ne_zero.mpr (Ne.symm hz)
  have h1 : (1 : ℚ) ≤ |(roundHalfEven q : ℚ) - (z : ℚ)| := by
    have h := Int.one_le_abs h0
    have hcast : ((|roundHalfEven q - z| : ℤ) : ℚ) = |(roundHalfEven q : ℚ) - (z : ℚ)| := by
      push_cast
      ring_nf
    rw [← hcast]
    exact_mod_cast h
  have h2 : |(roundHalfEven q : ℚ) - (z : ℚ)| ≤
      |(roundHalfEven q : ℚ) - q| + |q - (z : ℚ)| := abs_sub_le _ _ _
  have h3 : |(roundHalfEven q : ℚ) - q| = |q - (roundHalfEven q : ℚ)| := abs_sub_comm _ _
  have ht : intTol < 1 / 2 := by norm_num [intTol]
  linarith

/-- C7: the classifier chooses STREAMING exactly for members whose
uncompressed size is at or above the fixed threshold and BUFFERED exactly
below it; in particular a member of size exactly `SIZE_THRESHOLD_BYTES` is
STREAMING and one byte below is BUFFERED. -/
theorem c7_boundary_threshold (size : Nat) :
    (chooseStrategy size = Strategy.STREAMING ↔ SIZE_THRESHOLD_BYTES ≤ size) ∧
    (chooseStrategy size = Strategy.BUFFERED ↔ size < SIZE_THRESHOLD_BYTES) ∧
    chooseStrategy SIZE_THRESHOLD_BYTES = Strategy.STREAMING ∧
    chooseStrategy (SIZE_THRESHOLD_BYTES - 1) = Strategy.BUFFERED := by
  refine ⟨?_, ?_, by decide, by decide⟩ <;>
    unfold chooseStrategy <;> split <;> rename_i h <;> simp_all

/-- C4 counterexample: the claim says the one-character value consisting of
a single double-quote character is left unchanged, but the code (which has no
length guard) maps it to the empty string, a different string. -/
theorem c4_single_quote_counterexample :
    strip_outer_quotes_val (String.mk [dquote]) = "" ∧ String.mk [dquote] ≠ "" := by
  decide

/-- C4 amended: normalization strips exactly one leading and one trailing
double quote iff the value starts and ends with a double-quote character
(with no minimum length: for the one-character value consisting of a single
double quote the two positions coincide and the result is the empty string);
every value not both starting and ending with a double quote is unchanged. -/
theorem c4_quote_stripping :
    (∀ (mid : List Char) (v : String), v.toList = dquote :: (mid ++ [dquote]) →
        strip_outer_quotes_val v = String.mk mid) ∧
    strip_outer_quotes_val (String.mk [dquote]) = String.mk [] ∧
    (∀ v : String,
        ¬(v.toList.head? = some dquote ∧ v.toList.getLast? = some dquote) →
        strip_outer_quotes_val v = v) := by
  refine ⟨?_, by decide, ?_⟩
  · intro mid v h
    unfold strip_outer_quotes_val
    rw [h]
    have hsplit : dquote :: (mid ++ [dquote]) = (dquote :: mid) ++ [dquote] := by simp
    rw [if_pos]
    · simp [List.dropLast_concat]
    · constructor
      · rfl
      · rw [hsplit]
        exact List.getLast?_concat _
  · intro v h
    unfold strip_outer_quotes_val
    rw [if_neg h]

/-- C4 witness: the wrapped two-character payload is stripped exactly once. -/
theorem c4_quote_stripping_witness :
    strip_outer_quotes_val (String.mk [dquote, 'h', 'i', dquote]) = String.mk ['h', 'i'] :=
  c4_quote_stripping.1 ['h', 'i'] (String.mk [dquote, 'h', 'i', dquote]) rfl

/-- C3: for a declared INTEGER column, each value is parsed with
`to_numeric` (failures → null); if every non-null parsed value is within
absolute tolerance 1e-10 of its own rounded value the column is materialized
as nullable Int64 with every value rounded (the rounded value being the
unique nearest integer), otherwise it is materialized as float64 carrying the
parsed values; an all-null column falls under the first case (all-null
Int64). -/
theorem c3_integer_coercion (vs : List String) :
    ((∀ q ∈ (vs.map to_numeric).filterMap id, |q - (roundHalfEven q : ℚ)| < intTol) →
        parseIntegerColumn vs =
          Column.int64 ((vs.map to_numeric).map (Option.map roundHalfEven)) ∧
        ∀ q ∈ (vs.map to_numeric).filterMap id, ∀ z : Int, z ≠ roundHalfEven q →
          |q - (roundHalfEven q : ℚ)| < |q - (z : ℚ)|) ∧
    ((∃ q ∈ (vs.map to_numeric).filterMap id, ¬|q - (roundHalfEven q : ℚ)| < intTol) →
        parseIntegerColumn vs = Column.float64 (vs.map to_numeric)) := by
  constructor
  · intro hall
    constructor
    · unfold parseIntegerColumn
      by_cases hnn : (vs.map to_numeric).filterMap id = []
      · rw [if_neg (by simpa using hnn)]
        congr 1
        apply List.map_congr_left
        intro a ha
        have : a = none := by
          have := (List.filterMap_eq_nil_iff).mp hnn a ha
          simpa using this
        simp [this]
      · rw [if_pos hnn, if_pos]
        rw [List.all_eq_true]
        intro q hq
        exact decide_eq_true (hall q hq)
    · intro q hq z hz
      exact roundHalfEven_nearest q z (hall q hq) hz
  · rintro ⟨q, hq, hfar⟩
    unfold parseIntegerColumn
    have hnn : (vs.map to_numeric).filterMap id ≠ [] := List.ne_nil_of_mem hq
    rw [if_pos hnn, if_neg]
    intro hAll
    exact hfar (of_decide_eq_true (List.all_eq_true.mp hAll q hq))

/-- C3 witness: the all-integral chunk [1,2,3] materializes as Int64. -/
theorem c3_integer_coercion_witness :
    parseIntegerColumn ["1", "2", "3"] = Column.int64 [some 1, some 2, some 3] := by
  have h := (c3_integer_coercion ["1", "2", "3"]).1 (by decide)
  exact h.1

/-- C5 counterexample: the claim says any value not matching the exact
4-digit-year/2-digit-month/2-digit-day hyphenated format becomes null, but
the code parses the non-zero-padded value, whose month and day have a single
digit, to a real date. -/
theorem c5_nonpadded_counterexample :
    parseDateVal "2020-1-5" = some ⟨2020, 1, 5⟩ := by decide

/-- C5 amended: date coercion parses against a single fixed hyphenated
year-month-day format in which the year takes exactly four digits while month
and day take one or two digits (zero-padding optional); every parse yields a
calendar-valid date-only value inside the representable timestamp range, any
string not of that shape (including the empty string) yields null, and
coercion is total (it never aborts the conversion). -/
theorem c5_date_coercion :
    (∀ (s : String) (d : Date), parseDateVal s = some d →
        (∃ ys ms ds : List Char,
          s.toList = ys ++ '-' :: (ms ++ '-' :: ds) ∧
          ys.length = 4 ∧ ys.all Char.isDigit ∧
          (ms.length = 1 ∨ ms.length = 2) ∧ ms.all Char.isDigit ∧
          (ds.length = 1 ∨ ds.length = 2) ∧ ds.all Char.isDigit ∧
          d = ⟨digitsVal ys, digitsVal ms, digitsVal ds⟩) ∧
        (1 ≤ d.month ∧ d.month ≤ 12 ∧ 1 ≤ d.day ∧
          d.day ≤ daysInMonth d.year d.month ∧ inTimestampBounds d.year d.month d.day)) ∧
    parseDateVal "" = none ∧
    parseDateVal "2020-01-05" = some ⟨2020, 1, 5⟩ ∧
    parseDateVal "2020-1-5" = some ⟨2020, 1, 5⟩ ∧
    parseDateVal "01/05/2020" = none := by
  refine ⟨?_, by decide, by decide, by decide, by decide⟩
  intro s d h
  unfold parseDateVal parseDateChars at h
  split at h
  case _ ys rest heq =>
    split at h
    case _ ms ds heq2 =>
      rw [List.span_eq_take_drop] at heq heq2
      have hys : s.toList.takeWhile (fun c => c != '-') = ys := (Prod.mk.injEq _ _ _ _ ▸ heq).1
      have hrest : s.toList.dropWhile (fun c => c != '-') = '-' :: rest := (Prod.mk.injEq _ _ _ _ ▸ heq).2
      have hms : rest.takeWhile (fun c => c != '-') = ms := (Prod.mk.injEq _ _ _ _ ▸ heq2).1
      have hds : rest.dropWhile (fun c => c != '-') = '-' :: ds := (Prod.mk.injEq _ _ _ _ ▸ heq2).2
      have hs : s.toList = ys ++ '-' :: rest := by
        rw [← hys, ← hrest, List.takeWhile_append_dropWhile]
      have hr : rest = ms ++ '-' :: ds := by
        rw [← hms, ← hds, List.takeWhile_append_dropWhile]
      unfold mkDateOfParts at h
      split at h
      case _ hc =>
        split at h
        case _ hv =>
          injection h with hd
          subst hd
          refine ⟨⟨ys, ms, ds, ?_, hc.1, hc.2.1, hc.2.2.1, hc.2.2.2.1,
            hc.2.2.2.2.1, hc.2.2.2.2.2, rfl⟩, hv.2.1, hv.2.2.1, hv.2.2.2.1,
            hv.2.2.2.2.1, hv.2.2.2.2.2⟩
          rw [hs, hr]
        case _ => exact absurd h (by simp)
      case _ => exact absurd h (by simp)
    case _ => exact absurd h (by simp)
  case _ => exact absurd h (by simp)

/-- C5 witness: the spec's example date decomposes into the stated shape. -/
theorem c5_date_coercion_witness :
    (∃ ys ms ds : List Char,
      ("2020-01-05" : String).toList = ys ++ '-' :: (ms ++ '-' :: ds) ∧
      ys.length = 4 ∧ ys.all Char.isDigit ∧
      (ms.length = 1 ∨ ms.length = 2) ∧ ms.all Char.isDigit ∧
      (ds.length = 1 ∨ ds.length = 2) ∧ ds.all Char.isDigit ∧
      (⟨2020, 1, 5⟩ : Date) = ⟨digitsVal ys, digitsVal ms, digitsVal ds⟩) ∧
    (1 ≤ (2020 : Nat) ∧ True) := by
  have h := c5_date_coercion.1 "2020-01-05" ⟨2020, 1, 5⟩ (by decide)
  exact ⟨h.1, by norm_num⟩

lemma streamLoop_openW (dc ic : Option (List String)) :
    ∀ (chunks : List TypedTable) (sch : Schema) (ts : List TypedTable)
      (r : Except String Unit) (w : WriterSt),
      streamLoop dc ic chunks (WriterSt.openW sch ts) = (r, w) →
      ∃ ts2, w = WriterSt.openW sch (ts ++ ts2) ∧ ∀ t ∈ ts2, tableSchema t = sch := by
  intro chunks
  induction chunks with
  | nil =>
      intro sch ts r w h
      unfold streamLoop at h
      injection h with h1 h2
      exact ⟨[], by rw [← h2, List.append_nil], by simp⟩
  | cons c rest ih =>
      intro sch ts r w h
      unfold streamLoop at h
      split at h
      case _ e heq =>
        injection h with h1 h2
        exact ⟨[], by rw [← h2, List.append_nil], by simp⟩
      case _ t heq =>
        simp only [] at h
        split at h
        case isTrue hsch =>
          obtain ⟨ts2, hw, hall⟩ := ih sch (ts ++ [t]) r w h
          refine ⟨t :: ts2, ?_, ?_⟩
          · rw [hw, List.append_assoc, List.singleton_append]
          · intro x hx
            rcases List.mem_cons.mp hx with hx | hx
            · rw [hx]; exact hsch
            · exact hall x hx
        case isFalse hsch =>
          injection h with h1 h2
          exact ⟨[], by rw [← h2, List.append_nil], by simp⟩

/-- C9: on every exit path of `_write_parquet_streaming` — normal
completion or error — the writer handle ends released (never-opened or
closed, never open), and closing preserves the (possibly partial) output
content written so far. -/
theorem c9_writer_closed_on_all_paths (dc ic : Option (List String))
    (chunks : List TypedTable) :
    writerReleased (write_parquet_streaming dc ic chunks).2 = true ∧
    writerContent (write_parquet_streaming dc ic chunks).2 =
      writerContent (streamLoop dc ic chunks WriterSt.unopened).2 := by
  unfold write_parquet_streaming
  cases hsl : streamLoop dc ic chunks WriterSt.unopened with
  | mk r w => cases w <;> simp [closeWriter, writerReleased, writerContent]

/-- C2: whenever streaming conversion leaves a closed writer, its fixed
output schema was derived from the first chunk (which processed
successfully), that chunk's table is the first row group, and every row group
written to the file carries a schema identical to that first-chunk schema —
the writer never renegotiates the schema mid-file. -/
theorem c2_schema_fixed_by_first_chunk (dc ic : Option (List String))
    (chunks : List TypedTable) (sch : Schema) (ts : List TypedTable)
    (h : (write_parquet_streaming dc ic chunks).2 = WriterSt.closedW sch ts) :
    (∃ c0 rest t0, chunks = c0 :: rest ∧ processChunk dc ic c0 = Except.ok t0 ∧
        sch = tableSchema t0 ∧ ts.head? = some t0) ∧
    ∀ t ∈ ts, tableSchema t = sch := by
  unfold write_parquet_streaming at h
  cases chunks with
  | nil =>
      unfold streamLoop at h
      simp [closeWriter] at h
  | cons c0 rest =>
      rcases hsl : streamLoop dc ic (c0 :: rest) WriterSt.unopened with ⟨r, w⟩
      rw [hsl] at h
      unfold streamLoop at hsl
      split at hsl
      case _ e heq =>
        injection hsl with h1 h2
        rw [← h2] at h
        simp [closeWriter] at h
      case _ t0 heq =>
        obtain ⟨ts2, hw, hall⟩ := streamLoop_openW dc ic rest (tableSchema t0) [t0] r w hsl
        rw [hw] at h
        simp only [closeWriter] at h
        injection h with hsch hts
        refine ⟨⟨c0, rest, t0, rfl, heq, hsch.symm, ?_⟩, ?_⟩
        · rw [← hts]; rfl
        · intro t ht
          rw [← hts] at ht
          rcases List.mem_append.mp ht with ht | ht
          · rw [List.mem_singleton.mp ht, ← hsch]
          · rw [← hsch]; exact hall t ht

/-- C2 witness: a one-chunk stream fixes the schema to that chunk's. -/
theorem c2_schema_fixed_witness :
    (∃ c0 rest t0,
        ([[("a", Column.str ["1"])]] : List TypedTable) = c0 :: rest ∧
        processChunk none none c0 = Except.ok t0 ∧
        ([("a", DType.string)] : Schema) = tableSchema t0 ∧
        ([[("a", Column.str ["1"])]] : List TypedTable).head? = some t0) ∧
    ∀ t ∈ ([[("a", Column.str ["1"])]] : List TypedTable),
      tableSchema t = [("a", DType.string)] :=
  c2_schema_fixed_by_first_chunk none none [[("a", Column.str ["1"])]]
    [("a", DType.string)] [[("a", Column.str ["1"])]] (by decide)

/-- C1 (claim refuted, latent code bug): on the rows 1, 2, 2.5 of a
declared INTEGER column with chunk boundary after the second row, the
STREAMING strategy fixes an Int64 schema from the first chunk and then fails
with a schema mismatch on the second chunk (leaving a partial single-chunk
file), while the BUFFERED strategy succeeds with a float64 column — the two
strategies do not produce identical output. -/
theorem c1_strategy_divergence :
    (streamingConvert none (some ["a"]) 2 ["a"] [["1"], ["2"], ["2.5"]]).1 =
      Except.error schemaMismatchMsg ∧
    (streamingConvert none (some ["a"]) 2 ["a"] [["1"], ["2"], ["2.5"]]).2 =
      WriterSt.closedW [("a", DType.int64)] [[("a", Column.int64 [some 1, some 2])]] ∧
    bufferedConvert none (some ["a"]) ["a"] [["1"], ["2"], ["2.5"]] =
      Except.ok ⟨[("a", DType.float64)],
        [[("a", Column.float64 [some 1, some 2, some (5 / 2)])]]⟩ := by
  exact ⟨by decide, by decide, by decide⟩

/-- C6: if the job's target parquet file already exists when the job
starts, `convert_zip` returns success, performs no side effects, and leaves
the filesystem state (including the existing output bytes and the log)
unchanged. -/
theorem c6_idempotent_skip (dc ic : Option (List String)) (tableName : String)
    (ar : Archive) (fs : FS) (f : ParquetFile) (h : fs.parquetOut = some f) :
    convert_zip dc ic tableName ar fs = (Except.ok (), fs, []) := by
  unfold convert_zip
  rw [h]
  rfl

/-- C6 witness: a concrete job with existing output is a no-op. -/
theorem c6_idempotent_skip_witness :
    convert_zip none none "g_patent" (Archive.mk "g_patent.tsv.zip" [])
      (FS.mk (some (ParquetFile.mk [] [])) []) =
      (Except.ok (), FS.mk (some (ParquetFile.mk [] [])) [], []) :=
  c6_idempotent_skip none none "g_patent" (Archive.mk "g_patent.tsv.zip" [])
    (FS.mk (some (ParquetFile.mk [] [])) []) (ParquetFile.mk [] []) rfl

/-- C8 counterexample: an archive with zero `.tsv` members whose target
output already exists makes the job exit successfully with no error logged —
the claim that such an archive always fails with a logged error is false. -/
theorem c8_existing_output_counterexample :
    (Archive.mk "z.zip" [Member.mk "readme.txt" 0 [] []]).members.filter
        (fun m => strEndsWith m.filename ".tsv") = [] ∧
    convert_zip none none "t" (Archive.mk "z.zip" [Member.mk "readme.txt" 0 [] []])
        (FS.mk (some (ParquetFile.mk [] [])) []) =
      (Except.ok (), FS.mk (some (ParquetFile.mk [] [])) [], []) := by
  decide

/-- C8 amended: for an archive with zero `.tsv` members whose target
output does not already exist, the job appends the `ERROR` line to the
conversion log and raises the no-matching-member error to the caller. -/
theorem c8_no_member_failure (dc ic : Option (List String)) (tableName : String)
    (ar : Archive) (fs : FS) (h1 : fs.parquetOut = none)
    (h2 : ar.members.filter (fun m => strEndsWith m.filename ".tsv") = []) :
    convert_zip dc ic tableName ar fs =
      (Except.error (noTsvMsg ar),
       { fs with log := fs.log ++ [ar.zipName ++ ": ERROR - " ++ noTsvMsg ar] },
       [Effect.mkdirE, Effect.openLog, Effect.readArchive, Effect.appendLog]) := by
  unfold convert_zip
  rw [h1]
  simp [h2]

/-- C8 witness: a concrete empty archive fails and logs the error line. -/
theorem c8_no_member_failure_witness :
    convert_zip none none "t" (Archive.mk "z.zip" []) (FS.mk none []) =
      (Except.error (noTsvMsg (Archive.mk "z.zip" [])),
       FS.mk none ["z.zip: ERROR - No TSV members found in z.zip"],
       [Effect.mkdirE, Effect.openLog, Effect.readArchive, Effect.appendLog]) := by
  have h := c8_no_member_failure none none "t" (Archive.mk "z.zip" []) (FS.mk none [])
    rfl rfl
  exact h

/-- C10: a declared DATE or INTEGER column name absent from the chunk's
header causes no error and no change (dropping such a name from the declared
set leaves both coercions' output unchanged), and any column whose name is
not declared is returned untouched by both coercions. -/
theorem c10_absent_columns_untouched (t : TypedTable) (cols : List String) (nm : String) :
    (nm ∉ t.map Prod.fst →
        parse_date_columns (some (nm :: cols)) t = parse_date_columns (some cols) t ∧
        parse_integer_columns (some (nm :: cols)) t = parse_integer_columns (some cols) t) ∧
    List.Forall₂ (fun p q => p.1 ∉ cols → q = p) t (parse_date_columns (some cols) t) ∧
    List.Forall₂ (fun p q => p.1 ∉ cols → q = p) t (parse_integer_columns (some cols) t) := by
  have key : ∀ (f : Column → Column) (p : String × Column), p ∈ t → p.1 ≠ nm →
      (if p.1 ∈ nm :: cols then (p.1, f p.2) else p) =
        (if p.1 ∈ cols then (p.1, f p.2) else p) := by
    intro f p _ hne
    by_cases hc : p.1 ∈ cols
    · rw [if_pos hc, if_pos (List.mem_cons_of_mem _ hc)]
    · rw [if_neg hc, if_neg (by simp [List.mem_cons, hne, hc])]
  have frame : ∀ f : Column → Column,
      List.Forall₂ (fun p q => p.1 ∉ cols → q = p) t
        (t.map (fun p => if p.1 ∈ cols then (p.1, f p.2) else p)) := by
    intro f
    rw [List.forall₂_map_right_iff]
    exact List.forall₂_same.mpr (fun p _ hn => if_neg hn)
  refine ⟨?_, frame dateTransform, frame intTransform⟩
  intro hnm
  have hne : ∀ p ∈ t, p.1 ≠ nm := by
    intro p hp he
    exact hnm (he ▸ List.mem_map_of_mem Prod.fst hp)
  constructor
  · unfold parse_date_columns
    exact List.map_congr_left (fun p hp => key dateTransform p hp (hne p hp))
  · unfold parse_integer_columns
    exact List.map_congr_left (fun p hp => key intTransform p hp (hne p hp))

/-- C10 witness: an absent declared name leaves a concrete chunk unchanged. -/
theorem c10_absent_columns_untouched_witness :
    parse_date_columns (some ["b"]) [("a", Column.str ["x"])] =
      parse_date_columns (some []) [("a", Column.str ["x"])] :=
  ((c10_absent_columns_untouched [("a", Column.str ["x"])] [] "b").1 (by decide)).1
